import Mathlib

/-!
Verification of the Peloton storage-and-scan fragment: a shallow embedding of
the sequential-scan executor (`src/backend/executor/seq_scan_executor.cpp`),
the physical tile with its wire format (`src/storage/tile.cpp`), and the WAL
tuple record (`src/backend/logging/records/tuple_record.h`), together with
theorems settling the specification claims about them.

Machine integers are modelled as `Nat`; a byte is a `Nat` below 256; a byte
stream is a `List Nat`.  Components of the repository that are referenced but
not among the sampled sources (the serializer primitives, the tuple codec,
the tile iterator, the MVCC header) are modelled from the specification and
marked as such in their doc comments.
-/

--===========================================================================--
-- Tri-valued booleans (expression interface, spec section 6.4)
--===========================================================================--

/-- Tri-valued boolean returned by predicate evaluation. -/
inductive TriValue
  | vtrue
  | vfalse
  | vnull
deriving DecidableEq

/-- Strictly true (source `Value::IsTrue`). -/
def TriValue.IsTrue : TriValue → Bool
  | .vtrue => true
  | _ => false

/-- Strictly false (source `Value::IsFalse`). -/
def TriValue.IsFalse : TriValue → Bool
  | .vfalse => true
  | _ => false

--===========================================================================--
-- Sequential scan, Mode A (one child): seq_scan_executor.cpp lines 62-86
--===========================================================================--

/-- Mode A predicate pass of `SeqScanExecutor::DExecute` (lines 72-81): the
child logical tile is its list of visible positions in iteration order; the
loop removes the visibility of a position exactly when the predicate result
`IsFalse()`.  Removing the current position does not affect the remaining
iteration, so the surviving visible set is a filter. -/
def modeAVisibleAfter (pred : Nat → TriValue) (visible : List Nat) : List Nat :=
  visible.filter (fun p => !(pred p).IsFalse)

/-- The visibility set prescribed by the specification for one-child mode:
keep a position exactly when the predicate result is strictly true (so both
`false` and `null` results drop it). -/
def specModeAVisibleAfter (pred : Nat → TriValue) (visible : List Nat) : List Nat :=
  visible.filter (fun p => (pred p).IsTrue)

--===========================================================================--
-- Sequential scan, Mode B (no child): seq_scan_executor.cpp lines 88-154
--===========================================================================--

/-- A tile group as the scan consumes it: its allocation cursor
(`GetNextTupleSlot`) and its column-routing lookup (`LocateTileAndColumn`). -/
structure TileGroup where
  nextTupleSlot : Nat
  locate : Nat → Nat × Nat

/-- The target table: its tile groups in offset order and its schema's
column count. -/
structure DataTable where
  tileGroups : List TileGroup
  schemaColumnCount : Nat

/-- One column binding recorded by `LogicalTile::AddColumn`. -/
structure ColumnBinding where
  baseTileOffset : Nat
  ownBaseTile : Bool
  tileColumnId : Nat
  positionListIdx : Nat
deriving DecidableEq

/-- The logical tile built by the base-table scan: position lists in the
order `AddPositionList` appended them, and column bindings in the order
`AddColumn` recorded them. -/
structure LogicalTile where
  positionLists : List (List Nat)
  columns : List ColumnBinding
deriving DecidableEq

/-- Mutable executor state of `SeqScanExecutor`: the tile-group cursor and
the (lazily filled) output column ids. -/
structure SeqScanState where
  currentTileGroupOffset : Nat
  columnIds : List Nat
deriving DecidableEq

/-- Body of the position-list loop (lines 124-135): skip the slot unless it
is visible; then keep it when the predicate is absent or strictly true. -/
def keepSlot (isVisible : Nat → Bool) (pred : Option (Nat → TriValue)) (s : Nat) : Bool :=
  isVisible s && (match pred with
    | none => true
    | some p => (p s).IsTrue)

/-- The position list built for one tile group (lines 123-135): slots
`0 .. activeCount` in ascending order, filtered by `keepSlot`. -/
def buildPositionList (isVisible : Nat → Bool) (pred : Option (Nat → TriValue))
    (activeCount : Nat) : List Nat :=
  (List.range activeCount).filter (keepSlot isVisible pred)

/-- The column ids the call operates with (lines 96-99): when the stored
list is empty it is filled with `0 .. schemaColumnCount`. -/
def effectiveColumnIds (table : DataTable) (st : SeqScanState) : List Nat :=
  if st.columnIds.isEmpty then List.range table.schemaColumnCount else st.columnIds

/-- Mode B of `SeqScanExecutor::DExecute` (lines 88-154).  The MVCC
visibility check (`TileGroupHeader::IsVisible`, per tile-group offset and
slot) and the predicate evaluation (per tile-group offset and slot, the
`ContainerTuple` of that slot) are oracles supplied as functions, since the
header and expression sources are external to the scan.  Returns `none`
when the cursor has reached the tile-group count (line 102), otherwise the
emitted logical tile and the advanced state. -/
def DExecuteTableScan (table : DataTable) (isVisible : Nat → Nat → Bool)
    (pred : Option (Nat → Nat → TriValue)) (st : SeqScanState) :
    Option (LogicalTile × SeqScanState) :=
  let colIds := effectiveColumnIds table st
  if st.currentTileGroupOffset = table.tileGroups.length then none
  else
    match table.tileGroups.get? st.currentTileGroupOffset with
    | none => none
    | some tg =>
        let off := st.currentTileGroupOffset
        let posList := buildPositionList (isVisible off)
          (pred.map (fun p => p off)) tg.nextTupleSlot
        let lt : LogicalTile :=
          { positionLists := [posList]
            columns := colIds.map (fun cid =>
              { baseTileOffset := (tg.locate cid).1
                ownBaseTile := false
                tileColumnId := (tg.locate cid).2
                positionListIdx := 0 }) }
        some (lt, { currentTileGroupOffset := off + 1, columnIds := colIds })

/-- Driver re-entering `DExecute` until it returns false, collecting the
emitted logical tiles; `fuel` bounds the number of calls. -/
def runTableScan (table : DataTable) (isVisible : Nat → Nat → Bool)
    (pred : Option (Nat → Nat → TriValue)) : Nat → SeqScanState → List LogicalTile
  | 0, _ => []
  | fuel + 1, st =>
      match DExecuteTableScan table isVisible pred st with
      | none => []
      | some (lt, st2) => lt :: runTableScan table isVisible pred fuel st2

--===========================================================================--
-- Wire-format primitives (spec section 6.1; common/serializer.h is not
-- among the sampled sources)
--===========================================================================--

/-- Modelled from the spec: `SerializeOutput::WriteInt` of the missing
`common/serializer.h` writes a 32-bit integer as four big-endian bytes. -/
def writeIntBytes (v : Nat) : List Nat :=
  [v / 2 ^ 24 % 256, v / 2 ^ 16 % 256, v / 2 ^ 8 % 256, v % 256]

/-- Modelled from the spec: `SerializeOutput::WriteShort` writes a 16-bit
integer as two big-endian bytes. -/
def writeShortBytes (v : Nat) : List Nat :=
  [v / 2 ^ 8 % 256, v % 256]

/-- Modelled from the spec: `SerializeInput::ReadInt` consumes four
big-endian bytes; the 32-bit pattern is taken unchanged into `id_t`. -/
def readIntN : List Nat → Option (Nat × List Nat)
  | b0 :: b1 :: b2 :: b3 :: rest =>
      some (b0 * 2 ^ 24 + b1 * 2 ^ 16 + b2 * 2 ^ 8 + b3, rest)
  | _ => none

/-- Modelled from the spec: `SerializeInput::ReadByte` consumes one byte. -/
def readByteN : List Nat → Option (Nat × List Nat)
  | b :: rest => some (b, rest)
  | _ => none

/-- Modelled from the spec: `SerializeInput::ReadShort` consumes two
big-endian bytes as an `int16_t`; the deserializer stores the result into
the unsigned 32-bit `id_t`, so values at or above `2 ^ 15` sign-extend. -/
def readShortAsId : List Nat → Option (Nat × List Nat)
  | b0 :: b1 :: rest =>
      let v := b0 * 2 ^ 8 + b1
      some (if v < 2 ^ 15 then v else v + (2 ^ 32 - 2 ^ 16), rest)
  | _ => none

/-- Modelled from the spec: a run of `k` raw bytes (`ReadBytes`); fails on
truncated input (the source reads unchecked, which is undefined there). -/
def readBytesN (k : Nat) (input : List Nat) : Option (List Nat × List Nat) :=
  if k ≤ input.length then some (input.take k, input.drop k) else none

/-- Modelled from the spec: `SerializeInput::ReadTextString` reads a 32-bit
length followed by that many bytes. -/
def readTextString (input : List Nat) : Option (List Nat × List Nat) :=
  match readIntN input with
  | none => none
  | some (len, rest) => readBytesN len rest

--===========================================================================--
-- Schema, column values and the tuple codec (catalog/schema.cpp and
-- storage/tuple.cpp are not among the sampled sources)
--===========================================================================--

/-- One column descriptor: its value-type tag, whether it is stored inline,
and its fixed byte length when inline. -/
structure Column where
  ctype : Nat
  isInlined : Bool
  byteLength : Nat
deriving DecidableEq

/-- Modelled from the spec: a schema is value-equal by its column
sequence (`catalog::Schema` is not among the sampled sources). -/
structure Schema where
  cols : List Column
deriving DecidableEq

/-- Number of columns (`Schema::GetColumnCount`). -/
def Schema.GetColumnCount (s : Schema) : Nat :=
  s.cols.length

/-- Modelled from the spec: the schema is inlined when every column is
(`Schema::IsInlined`). -/
def Schema.IsInlined (s : Schema) : Bool :=
  s.cols.all (·.isInlined)

/-- Modelled from the spec: the in-memory tuple length is the sum of the
column byte lengths (`Schema::GetLength`). -/
def Schema.GetLength (s : Schema) : Nat :=
  (s.cols.map (·.byteLength)).sum

/-- A column value is its payload bytes; a tuple is one payload per column.
Modelled from the spec: fixed-width columns are packed as their bytes,
variable-length columns serialize as a length-prefixed byte string
(`storage/tuple.cpp` is not among the sampled sources). -/
abbrev TupleBytes := List (List Nat)

/-- Modelled from the spec: `Tuple::SerializeTo` writes each column in
schema order, inline columns as raw payload, variable-length columns with a
32-bit length prefix. -/
def serializeTupleCols : List Column → TupleBytes → List Nat
  | [], _ => []
  | _ :: _, [] => []
  | c :: cs, v :: vs =>
      (if c.isInlined then v else writeIntBytes v.length ++ v) ++
        serializeTupleCols cs vs

/-- Modelled from the spec: `Tuple::DeserializeFrom` reads each column in
schema order, inline columns as `byteLength` raw bytes, variable-length
columns as a length-prefixed byte string. -/
def deserializeTupleCols : List Column → List Nat → Option (TupleBytes × List Nat)
  | [], input => some ([], input)
  | c :: cs, input =>
      match (if c.isInlined then readBytesN c.byteLength input else readTextString input) with
      | none => none
      | some (v, rest) =>
          match deserializeTupleCols cs rest with
          | none => none
          | some (vs, rest2) => some (v :: vs, rest2)

/-- Well-formedness of a tuple against a column list: matching arity,
inline payloads of exactly the column byte length, and variable-length
payloads small enough for a 32-bit length prefix. -/
def tupleWF : List Column → TupleBytes → Bool
  | [], [] => true
  | c :: cs, v :: vs =>
      (if c.isInlined then v.length == c.byteLength
       else decide (v.length < 2 ^ 32)) && tupleWF cs vs
  | _, _ => false

/-- Concatenated encodings of the column names, each length-prefixed,
exactly as the header-serialization loop of `Tile::SerializeHeaderTo`
emits them. -/
def encodeNames : List (List Nat) → List Nat
  | [] => []
  | nm :: rest => writeIntBytes nm.length ++ nm ++ encodeNames rest

/-- Concatenated tuple encodings, exactly as the serialization loop of
`Tile::SerializeTo` emits them. -/
def encodeTuples (cols : List Column) : List TupleBytes → List Nat
  | [] => []
  | tup :: rest => serializeTupleCols cols tup ++ encodeTuples cols rest

--===========================================================================--
-- The physical Tile: storage/tile.cpp
--===========================================================================--

/-- The state of a `Tile` that serialization touches: its schema, its
per-column names (`column_names`), the stored `column_count` and
`database_id` fields, its slot contents in slot order (`data`, one entry
per allocated slot, windowed by the tile iterator), and the cached
serialized column header (`column_header`, `NULL` before the first
serialization). -/
structure TileState where
  schema : Schema
  columnNames : List (List Nat)
  columnCount : Nat
  databaseId : Nat
  tuples : List TupleBytes
  columnHeader : Option (List Nat)
deriving DecidableEq

/-- Outcome of a deserialization call: success with the updated tile and
the unconsumed input, the thrown `SerializationException`, or a read past
the end of the input (unchecked, hence undefined, in the source). -/
inductive DeserResult
  | ok (t : TileState) (rest : List Nat)
  | serializationException
  | stuck
deriving DecidableEq

/-- The column-header bytes `Tile::SerializeHeaderTo` computes on a cache
miss (lines 233-276): a 32-bit non-inclusive header size, the status byte
`-128`, the column count as a 16-bit value, one type byte per column, and
the length-prefixed column names.  The loops run `column_count` times over
the schema and the name vector. -/
def TileState.serializeHeaderBytes (t : TileState) : List Nat :=
  let body := 128 :: (writeShortBytes t.columnCount ++
    (t.schema.cols.take t.columnCount).map (fun c => c.ctype % 256) ++
    encodeNames (t.columnNames.take t.columnCount))
  writeIntBytes body.length ++ body

/-- `Tile::SerializeHeaderTo` (lines 223-279): write the cached header
verbatim when present; otherwise compute the header bytes, write them, and
store them in the tile's cache.  Returns the bytes written and the updated
tile. -/
def TileState.SerializeHeaderTo (t : TileState) : List Nat × TileState :=
  match t.columnHeader with
  | some cached => (cached, t)
  | none =>
      let h := t.serializeHeaderBytes
      (h, { t with columnHeader := some h })

/-- `Tile::SerializeTo` (lines 181-221): a 32-bit non-inclusive total size
(patched in at the end), the column header, the 32-bit tuple count
`num_tuples`, and the first `num_tuples` slots in iteration order (the tile
iterator is modelled from the spec: it yields the slots `0 ..` in order).
Returns the bytes written and the updated tile. -/
def TileState.SerializeTo (t : TileState) (numTuples : Nat) : List Nat × TileState :=
  let hp := t.SerializeHeaderTo
  let body := hp.1 ++ writeIntBytes numTuples ++
    encodeTuples t.schema.cols (t.tuples.take numTuples)
  (writeIntBytes body.length ++ body, hp.2)

/-- The tuple-reading loop of `Tile::DeserializeTuplesFromWithoutHeader`
(lines 380-384): decode `k` consecutive tuples. -/
def readTuplesLoop (cols : List Column) : Nat → List Nat → Option (List TupleBytes × List Nat)
  | 0, input => some ([], input)
  | k + 1, input =>
      match deserializeTupleCols cols input with
      | none => none
      | some (tup, rest) =>
          match readTuplesLoop cols k rest with
          | none => none
          | some (tups, rest2) => some (tup :: tups, rest2)

/-- `Tile::DeserializeTuplesFromWithoutHeader` (lines 372-386): read the
32-bit tuple count, then load that many tuples into consecutive slots
starting at slot 0; later slots keep their contents. -/
def TileState.DeserializeTuplesFromWithoutHeader (t : TileState) (input : List Nat) :
    Option (TileState × List Nat) :=
  match readIntN input with
  | none => none
  | some (tupleCount, rest) =>
      match readTuplesLoop t.schema.cols tupleCount rest with
      | none => none
      | some (tups, rest2) =>
          some ({ t with tuples := tups ++ t.tuples.drop tupleCount }, rest2)

/-- The name-reading loop of `Tile::DeserializeTuplesFrom` (lines 340-342):
read `k` length-prefixed strings. -/
def readNamesLoop : Nat → List Nat → Option (List (List Nat) × List Nat)
  | 0, input => some ([], input)
  | k + 1, input =>
      match readTextString input with
      | none => none
      | some (nm, rest) =>
          match readNamesLoop k rest with
          | none => none
          | some (nms, rest2) => some (nm :: nms, rest2)

/-- `Tile::DeserializeTuplesFrom` (lines 308-365): consume the 32-bit
header size, the status byte, the 16-bit column count, one type byte per
incoming column and the incoming column names (types and names are read
but not validated); throw `SerializationException` when the incoming
column count differs from the schema's column count, otherwise delegate to
`DeserializeTuplesFromWithoutHeader`.  The throw happens before any slot
is written. -/
def TileState.DeserializeTuplesFrom (t : TileState) (input : List Nat) : DeserResult :=
  match readIntN input with
  | none => .stuck
  | some (_, r1) =>
  match readByteN r1 with
  | none => .stuck
  | some (_, r2) =>
  match readShortAsId r2 with
  | none => .stuck
  | some (colCount, r3) =>
  match readBytesN colCount r3 with
  | none => .stuck
  | some (_, r4) =>
  match readNamesLoop colCount r4 with
  | none => .stuck
  | some (_, r5) =>
  if colCount = t.schema.GetColumnCount then
    match t.DeserializeTuplesFromWithoutHeader r5 with
    | none => .stuck
    | some (t2, rest) => .ok t2 rest
  else .serializationException

/-- The cached column header, when present, is the one the tile itself
computed: the write-once discipline of `SerializeHeaderTo`. -/
def TileState.headerCacheValid (t : TileState) : Prop :=
  t.columnHeader = none ∨ t.columnHeader = some t.serializeHeaderBytes

--===========================================================================--
-- Tile construction: storage/tile.cpp lines 29-63
--===========================================================================--

/-- The backend allocator as the constructor sees it: whether `Allocate`
returns a non-null buffer for a given size. -/
structure Backend where
  allocOk : Nat → Bool

/-- Outcome of running the `Tile` constructor.  `assertionFailure` is a
fired debug `assert` (release builds would proceed into undefined
behaviour); `allocationError` is a propagated allocation exception, which
the constructor never produces but which the specification's claim
requires to be expressible. -/
inductive TileCtorOutcome
  | constructed (dataBytes : List Nat) (poolAllocated : Bool)
  | assertionFailure
  | allocationError
deriving DecidableEq

/-- `Tile::Tile` (lines 29-63): assert `tuple_count > 0`; acquire
`tuple_count * schema.GetLength()` bytes from the backend and assert the
result non-null; zero the buffer; construct a pool bound to the same
backend exactly when the schema is not fully inlined. -/
def tileCtor (backend : Backend) (schema : Schema) (tupleCount : Nat) : TileCtorOutcome :=
  if tupleCount = 0 then .assertionFailure
  else
    let tileSize := tupleCount * schema.GetLength
    if backend.allocOk tileSize then
      .constructed (List.replicate tileSize 0) (!schema.IsInlined)
    else .assertionFailure

--===========================================================================--
-- Tile equality: storage/tile.cpp lines 393-426
--===========================================================================--

/-- The tuple-comparison loop of `Tile::operator==` (lines 410-416): step
both iterators while this tile's iterator yields; fail when the other
iterator is exhausted first or a pair differs; succeed when this tile's
iterator is exhausted, without consulting the other iterator again.
Tuple comparison (`Tuple::operator==`, not among the sampled sources) is
modelled from the spec as value equality of the payload bytes. -/
def tuplesEqLoop : List TupleBytes → List TupleBytes → Bool
  | [], _ => true
  | _ :: _, [] => false
  | t :: ts, u :: us => (t == u) && tuplesEqLoop ts us

/-- `Tile::operator==` (lines 393-422): compare the stored column counts,
the database ids, the schemas by value, then the tuple sequences with
`tuplesEqLoop`. -/
def tileEq (a b : TileState) : Bool :=
  if !(a.columnCount == b.columnCount) then false
  else if !(a.databaseId == b.databaseId) then false
  else if !(a.schema == b.schema) then false
  else tuplesEqLoop a.tuples b.tuples

--===========================================================================--
-- TupleRecord: backend/logging/records/tuple_record.h
--===========================================================================--

/-- An `ItemPointer`: block id and offset. -/
structure ItemPointer where
  block : Nat
  offset : Nat
deriving DecidableEq

/-- Whether both components are zero, the state `memset(&loc, 0, ...)`
leaves a location in. -/
def ItemPointer.isAllZero (p : ItemPointer) : Bool :=
  p.block == 0 && p.offset == 0

/-- The WAL record types the claim concerns (`LogRecordType` lives in the
missing `backend/logging/log_record.h`); `other` stands for the remaining
tags. -/
inductive LogRecordType
  | tupleInsert
  | tupleDelete
  | tupleUpdate
  | other
deriving DecidableEq

/-- The fields of a constructed `TupleRecord` the claim concerns. -/
structure TupleRecord where
  recordType : LogRecordType
  txnId : Nat
  tableOid : Nat
  insertLocation : ItemPointer
  deleteLocation : ItemPointer
  dbOid : Nat
deriving DecidableEq

/-- The type-only `TupleRecord` constructor (tuple_record.h lines 29-39):
txn id, db oid and table oid are set to their invalid (zero) sentinels and
both locations are zeroed with `memset`, whatever the record type. -/
def TupleRecord.mkTypeOnly (ty : LogRecordType) : TupleRecord :=
  { recordType := ty, txnId := 0, tableOid := 0,
    insertLocation := ⟨0, 0⟩, deleteLocation := ⟨0, 0⟩, dbOid := 0 }

/-- The full `TupleRecord` constructor (tuple_record.h lines 41-65): store
the caller's fields; assert `txn_id`, `table_oid` and (after defaulting to
the bridge's current database oid) `db_oid` non-zero.  The locations are
stored without any check.  `none` models a fired assert. -/
def TupleRecord.mkFull (ty : LogRecordType) (txnId tableOid : Nat)
    (insertLocation deleteLocation : ItemPointer) (dbOid currentDbOid : Nat) :
    Option TupleRecord :=
  if txnId = 0 then none
  else if tableOid = 0 then none
  else
    let db := if dbOid = 0 then currentDbOid else dbOid
    if db = 0 then none
    else some { recordType := ty, txnId := txnId, tableOid := tableOid,
                insertLocation := insertLocation, deleteLocation := deleteLocation,
                dbOid := db }

/-- The location invariant as the specification states it: an insert record
has a non-zero insert location and an all-zero delete location, a delete
record the reverse, an update record two non-zero locations. -/
def specLocationInvariant (r : TupleRecord) : Bool :=
  match r.recordType with
  | .tupleInsert => !r.insertLocation.isAllZero && r.deleteLocation.isAllZero
  | .tupleDelete => r.insertLocation.isAllZero && !r.deleteLocation.isAllZero
  | .tupleUpdate => !r.insertLocation.isAllZero && !r.deleteLocation.isAllZero
  | .other => true

--===========================================================================--
-- Concrete instances used by witnesses and counterexamples
--===========================================================================--

/-- A one-column inlined schema: an integer-typed column of one byte. -/
def schemaEx : Schema :=
  { cols := [{ ctype := 4, isInlined := true, byteLength := 1 }] }

/-- A tile over `schemaEx` holding the single tuple `[7]`, column named
`a` (byte 97), header not yet cached. -/
def tileEx : TileState :=
  { schema := schemaEx, columnNames := [[97]], columnCount := 1,
    databaseId := 0, tuples := [[[7]]], columnHeader := none }

/-- A fresh tile of the same schema with one zeroed slot. -/
def freshTileEx : TileState :=
  { schema := schemaEx, columnNames := [[97]], columnCount := 1,
    databaseId := 0, tuples := [[[0]]], columnHeader := none }

/-- A tile over `schemaEx` with two slots whose first tuple matches
`tileEx`'s only tuple. -/
def tileTwoEx : TileState :=
  { schema := schemaEx, columnNames := [[97]], columnCount := 1,
    databaseId := 0, tuples := [[[7]], [[8]]], columnHeader := none }

/-- A backend whose `Allocate` always returns null. -/
def backendNullEx : Backend := { allocOk := fun _ => false }

/-- A backend whose `Allocate` always succeeds. -/
def backendOkEx : Backend := { allocOk := fun _ => true }

/-- A tile group of four slots with the identity column routing. -/
def tileGroupEx : TileGroup := { nextTupleSlot := 4, locate := fun cid => (0, cid) }

/-- A table of one tile group over a two-column schema. -/
def tableEx : DataTable := { tileGroups := [tileGroupEx], schemaColumnCount := 2 }

/-- A visibility oracle: even slots are visible. -/
def visEx : Nat → Nat → Bool := fun _ s => s % 2 == 0

/-- A predicate agreeing with `predAllTrueEx` on the visible (even) slots
but returning null on the invisible odd ones. -/
def predEvenTrueEx : Nat → Nat → TriValue :=
  fun _ s => if s % 2 == 0 then TriValue.vtrue else TriValue.vnull

/-- The everywhere-true predicate. -/
def predAllTrueEx : Nat → Nat → TriValue := fun _ _ => TriValue.vtrue

/-- The scan state after `DInit`: cursor at zero, column ids unset. -/
def initScanStateEx : SeqScanState := { currentTileGroupOffset := 0, columnIds := [] }

--===========================================================================--
-- Helper lemmas about the wire-format primitives
--===========================================================================--

theorem writeIntBytes_length (v : Nat) : (writeIntBytes v).length = 4 := rfl

theorem drop4_writeIntBytes (v : Nat) (r : List Nat) :
    (writeIntBytes v ++ r).drop 4 = r := rfl

theorem readIntN_writeIntBytes (v : Nat) (r : List Nat) :
    readIntN (writeIntBytes v ++ r) = some (v % 2 ^ 32, r) := by
  simp only [writeIntBytes, List.cons_append, List.nil_append, readIntN]
  refine congrArg (fun x => some (x, r)) ?_
  omega

theorem readIntN_writeIntBytes_of_lt (v : Nat) (h : v < 2 ^ 32) (r : List Nat) :
    readIntN (writeIntBytes v ++ r) = some (v, r) := by
  rw [readIntN_writeIntBytes, Nat.mod_eq_of_lt h]

theorem readShortAsId_writeShortBytes (v : Nat) (h : v < 2 ^ 15) (r : List Nat) :
    readShortAsId (writeShortBytes v ++ r) = some (v, r) := by
  have hv : v / 2 ^ 8 % 256 * 2 ^ 8 + v % 256 = v := by omega
  simp only [writeShortBytes, List.cons_append, List.nil_append, readShortAsId, hv]
  rw [if_pos h]

theorem readBytesN_exact (k : Nat) (l r : List Nat) (h : l.length = k) :
    readBytesN k (l ++ r) = some (l, r) := by
  subst h
  rw [readBytesN, if_pos (by simp), List.take_left, List.drop_left]

theorem readTextString_encode (nm r : List Nat) (h : nm.length < 2 ^ 32) :
    readTextString (writeIntBytes nm.length ++ (nm ++ r)) = some (nm, r) := by
  simp only [readTextString, readIntN_writeIntBytes_of_lt _ h, readBytesN_exact _ _ _ rfl]

theorem readNamesLoop_encode (names : List (List Nat)) (r : List Nat)
    (h : ∀ nm ∈ names, nm.length < 2 ^ 32) :
    readNamesLoop names.length (encodeNames names ++ r) = some (names, r) := by
  induction names generalizing r with
  | nil => simp [readNamesLoop, encodeNames]
  | cons nm rest ih =>
      have h1 : nm.length < 2 ^ 32 := h nm (by simp)
      have h2 : ∀ x ∈ rest, x.length < 2 ^ 32 := fun x hx => h x (by simp [hx])
      simp only [encodeNames, List.append_assoc, List.length_cons, readNamesLoop]
      simp only [readTextString_encode _ _ h1, ih _ h2]

--===========================================================================--
-- Helper lemmas about the tuple codec
--===========================================================================--

theorem deserializeTupleCols_encode (cols : List Column) (tup : TupleBytes) (r : List Nat)
    (h : tupleWF cols tup = true) :
    deserializeTupleCols cols (serializeTupleCols cols tup ++ r) = some (tup, r) := by
  induction cols generalizing tup r with
  | nil =>
      cases tup with
      | nil => simp [deserializeTupleCols, serializeTupleCols]
      | cons v vs => simp [tupleWF] at h
  | cons c cs ih =>
      cases tup with
      | nil => simp [tupleWF] at h
      | cons v vs =>
          rw [tupleWF, Bool.and_eq_true] at h
          obtain ⟨h1, h2⟩ := h
          cases hc : c.isInlined with
          | true =>
              have hlen : v.length = c.byteLength := by
                rw [hc, if_pos rfl] at h1
                exact beq_iff_eq.mp h1
              simp only [serializeTupleCols, deserializeTupleCols, hc, if_true,
                List.append_assoc]
              simp only [readBytesN_exact _ _ _ hlen, ih _ _ h2]
          | false =>
              have hlen : v.length < 2 ^ 32 := by
                rw [hc, if_neg (by simp)] at h1
                exact of_decide_eq_true h1
              simp [serializeTupleCols, deserializeTupleCols, hc, List.append_assoc,
                readTextString_encode _ _ hlen, ih _ _ h2]

theorem readTuplesLoop_encode (cols : List Column) (tups : List TupleBytes) (r : List Nat)
    (h : ∀ tup ∈ tups, tupleWF cols tup = true) :
    readTuplesLoop cols tups.length (encodeTuples cols tups ++ r) = some (tups, r) := by
  induction tups generalizing r with
  | nil => simp [readTuplesLoop, encodeTuples]
  | cons tup rest ih =>
      have h1 : tupleWF cols tup = true := h tup (by simp)
      have h2 : ∀ x ∈ rest, tupleWF cols x = true := fun x hx => h x (by simp [hx])
      simp only [encodeTuples, List.append_assoc, List.length_cons, readTuplesLoop]
      simp only [deserializeTupleCols_encode _ _ _ h1, ih _ h2]

--===========================================================================--
-- Helper lemmas about tile deserialization
--===========================================================================--

theorem deserializeWithoutHeader_encode (t : TileState) (tups : List TupleBytes)
    (r : List Nat) (hwf : ∀ tup ∈ tups, tupleWF t.schema.cols tup = true)
    (h32 : tups.length < 2 ^ 32) :
    t.DeserializeTuplesFromWithoutHeader
        (writeIntBytes tups.length ++ (encodeTuples t.schema.cols tups ++ r)) =
      some ({ t with tuples := tups ++ t.tuples.drop tups.length }, r) := by
  simp only [TileState.DeserializeTuplesFromWithoutHeader,
    readIntN_writeIntBytes_of_lt _ h32, readTuplesLoop_encode _ _ _ hwf]

theorem deserialize_header_encoded (t : TileState) (hdrSize statusByte : Nat)
    (names : List (List Nat)) (hcc : names.length < 2 ^ 15)
    (types : List Nat) (htypes : types.length = names.length)
    (hnm : ∀ nm ∈ names, nm.length < 2 ^ 32) (rest : List Nat) :
    t.DeserializeTuplesFrom
        (writeIntBytes hdrSize ++ statusByte ::
          (writeShortBytes names.length ++ (types ++ (encodeNames names ++ rest)))) =
      if names.length = t.schema.GetColumnCount then
        match t.DeserializeTuplesFromWithoutHeader rest with
        | none => DeserResult.stuck
        | some (t2, r2) => DeserResult.ok t2 r2
      else DeserResult.serializationException := by
  simp only [TileState.DeserializeTuplesFrom, readIntN_writeIntBytes, readByteN,
    readShortAsId_writeShortBytes _ hcc, readBytesN_exact _ _ _ htypes,
    readNamesLoop_encode _ _ hnm]

theorem serializeHeaderBytes_shape (t : TileState)
    (hcc : t.columnCount = t.schema.cols.length)
    (hnl : t.columnNames.length = t.columnCount) (x : List Nat) :
    t.serializeHeaderBytes ++ x =
      writeIntBytes (128 :: (writeShortBytes t.columnNames.length ++
          ((t.schema.cols.map fun c => c.ctype % 256) ++ encodeNames t.columnNames))).length ++
        128 :: (writeShortBytes t.columnNames.length ++
          ((t.schema.cols.map fun c => c.ctype % 256) ++ (encodeNames t.columnNames ++ x))) := by
  have h1 : t.schema.cols.take t.columnCount = t.schema.cols := by
    rw [hcc]
    exact List.take_length _
  have h2 : t.columnNames.take t.columnCount = t.columnNames := by
    rw [← hnl]
    exact List.take_length _
  simp [TileState.serializeHeaderBytes, h1, h2, hnl, List.append_assoc]

--===========================================================================--
-- Claim C3: serialize/deserialize round trip
--===========================================================================--

/-- C3: for every tile `T` and every `n` not exceeding the number of its
slot tuples, serializing `T` with `SerializeTo(-, n)` and deserializing the
framed payload (the serialized bytes after their 4-byte non-inclusive total
size prefix, the framing the deserialization boundary consumes) into a
fresh tile of the same schema loads the first `n` tuples of `T` into the
fresh tile's first `n` slots, so the first `n` tuples agree.  The
hypotheses are the tile well-formedness invariants the constructor
establishes: stored column count matching the schema, one name per column,
a write-once header cache, and payloads within the wire format's bounds. -/
theorem tile_serialize_roundtrip (t fresh : TileState) (n : Nat)
    (hcv : t.headerCacheValid)
    (hcc : t.columnCount = t.schema.cols.length)
    (hnl : t.columnNames.length = t.columnCount)
    (hc15 : t.columnCount < 2 ^ 15)
    (hnm : ∀ nm ∈ t.columnNames, nm.length < 2 ^ 32)
    (hn : n ≤ t.tuples.length)
    (hn32 : n < 2 ^ 32)
    (hwf : ∀ tup ∈ t.tuples.take n, tupleWF t.schema.cols tup = true)
    (hfs : fresh.schema = t.schema)
    (hcap : n ≤ fresh.tuples.length) :
    fresh.DeserializeTuplesFrom ((t.SerializeTo n).1.drop 4) =
        DeserResult.ok { fresh with tuples := t.tuples.take n ++ fresh.tuples.drop n } [] ∧
      (t.tuples.take n ++ fresh.tuples.drop n).take n = t.tuples.take n := by
  have hlen : (t.tuples.take n).length = n := by
    rw [List.length_take]
    omega
  have hhdr : (t.SerializeHeaderTo).1 = t.serializeHeaderBytes := by
    rcases hcv with h | h
    · simp [TileState.SerializeHeaderTo, h]
    · simp [TileState.SerializeHeaderTo, h]
  have hdrop : (t.SerializeTo n).1.drop 4 =
      t.serializeHeaderBytes ++
        (writeIntBytes n ++ encodeTuples t.schema.cols (t.tuples.take n)) := by
    simp [TileState.SerializeTo, hhdr, drop4_writeIntBytes, List.append_assoc]
  have hcols : fresh.schema.cols = t.schema.cols := by rw [hfs]
  have hrt := deserializeWithoutHeader_encode fresh (t.tuples.take n) []
    (fun tup ht => hcols.symm ▸ hwf tup ht) (by rw [hlen]; exact hn32)
  rw [List.append_nil, hlen, hcols] at hrt
  have hmatch : t.columnNames.length = fresh.schema.GetColumnCount := by
    rw [hfs]
    simp [Schema.GetColumnCount, hnl, hcc]
  have hmain := deserialize_header_encoded fresh
    (128 :: (writeShortBytes t.columnNames.length ++
      ((t.schema.cols.map fun c => c.ctype % 256) ++ encodeNames t.columnNames))).length
    128 t.columnNames (by rw [hnl]; exact hc15)
    (t.schema.cols.map fun c => c.ctype % 256) (by simp [hnl, hcc]) hnm
    (writeIntBytes n ++ encodeTuples t.schema.cols (t.tuples.take n))
  rw [hdrop, serializeHeaderBytes_shape t hcc hnl, hmain, if_pos hmatch, hrt]
  exact ⟨rfl, List.take_left' hlen⟩

/-- C3 witness: the round trip evaluated at `tileEx` (one inlined integer
column, one tuple) and the fresh one-slot tile `freshTileEx`. -/
theorem tile_serialize_roundtrip_witness :
    (1 ≤ tileEx.tuples.length ∧ freshTileEx.schema = tileEx.schema) ∧
      TileState.DeserializeTuplesFrom freshTileEx
          ((TileState.SerializeTo tileEx 1).1.drop 4) =
        DeserResult.ok
          { freshTileEx with
              tuples := tileEx.tuples.take 1 ++ freshTileEx.tuples.drop 1 } [] :=
  ⟨⟨by decide, rfl⟩,
    (tile_serialize_roundtrip tileEx freshTileEx 1 (Or.inl rfl) rfl rfl (by decide)
      (by decide) (by decide) (by decide) (by decide) rfl (by decide)).1⟩

--===========================================================================--
-- Claim C5: header caching
--===========================================================================--

/-- C5: the serialized column header is computed on the first call
(`columnHeader = none`), stored in the tile, and any later call against a
tile with a cached header writes the cached bytes verbatim and leaves the
tile unchanged; consequently the header a second `SerializeTo` call writes
equals the header the first call wrote, byte for byte. -/
theorem tile_header_cache_stability (t : TileState) :
    (t.columnHeader = none →
      t.SerializeHeaderTo =
        (t.serializeHeaderBytes, { t with columnHeader := some t.serializeHeaderBytes })) ∧
    (∀ h, t.columnHeader = some h → t.SerializeHeaderTo = (h, t)) ∧
    ((t.SerializeHeaderTo).2.SerializeHeaderTo).1 = (t.SerializeHeaderTo).1 ∧
    (∀ n, ((t.SerializeTo n).2.SerializeHeaderTo).1 = (t.SerializeHeaderTo).1) := by
  cases hch : t.columnHeader with
  | none =>
      refine ⟨?_, ?_, ?_, ?_⟩
      · intro hn
        simp [TileState.SerializeHeaderTo, hch]
      · intro h hh
        exact nomatch hh
      · simp [TileState.SerializeHeaderTo, TileState.SerializeTo, hch]
      · intro n
        simp [TileState.SerializeHeaderTo, TileState.SerializeTo, hch]
  | some h0 =>
      refine ⟨?_, ?_, ?_, ?_⟩
      · intro hn
        exact nomatch hn
      · intro h hh
        injection hh with hh
        simp [TileState.SerializeHeaderTo, hch, hh]
      · simp [TileState.SerializeHeaderTo, TileState.SerializeTo, hch]
      · intro n
        simp [TileState.SerializeHeaderTo, TileState.SerializeTo, hch]

/-- C5 witness: at `tileEx` (empty cache) the first call computes and
caches the header, and the header written by a second `SerializeTo` call
equals the first call's header. -/
theorem tile_header_cache_stability_witness :
    TileState.SerializeHeaderTo tileEx =
        (tileEx.serializeHeaderBytes,
          { tileEx with columnHeader := some tileEx.serializeHeaderBytes }) ∧
      ((TileState.SerializeTo tileEx 1).2.SerializeHeaderTo).1 =
        (TileState.SerializeHeaderTo tileEx).1 :=
  ⟨(tile_header_cache_stability tileEx).1 rfl,
    (tile_header_cache_stability tileEx).2.2.2 1⟩

--===========================================================================--
-- Claim C6: deserialization column-count validation
--===========================================================================--

/-- C6: on a well-framed wire header carrying `names.length` incoming
columns, `DeserializeTuplesFrom` (1) throws `SerializationException`
whenever the incoming column count differs from the target schema's column
count — and since the throw precedes the tuple-loading phase, no slot is
written and no updated tile escapes; (2) never throws
`SerializationException` when the counts agree, whatever the remaining
input; and (3) when the counts agree and the remaining input carries `k`
well-formed tuple payloads, loads them into consecutive slots starting at
slot 0, later slots keeping their contents.  The column types and names of
the header are universally quantified: they are consumed without any
re-validation. -/
theorem tile_deserialize_colcount_check (t : TileState) (hdrSize statusByte : Nat)
    (names : List (List Nat)) (hcc : names.length < 2 ^ 15)
    (types : List Nat) (htypes : types.length = names.length)
    (hnm : ∀ nm ∈ names, nm.length < 2 ^ 32) (rest : List Nat) :
    (names.length ≠ t.schema.GetColumnCount →
      t.DeserializeTuplesFrom (writeIntBytes hdrSize ++ statusByte ::
          (writeShortBytes names.length ++ (types ++ (encodeNames names ++ rest)))) =
        DeserResult.serializationException) ∧
    (names.length = t.schema.GetColumnCount →
      t.DeserializeTuplesFrom (writeIntBytes hdrSize ++ statusByte ::
          (writeShortBytes names.length ++ (types ++ (encodeNames names ++ rest)))) ≠
        DeserResult.serializationException) ∧
    (names.length = t.schema.GetColumnCount →
      ∀ (tups : List TupleBytes) (r2 : List Nat),
        (∀ tup ∈ tups, tupleWF t.schema.cols tup = true) → tups.length < 2 ^ 32 →
        rest = writeIntBytes tups.length ++ (encodeTuples t.schema.cols tups ++ r2) →
        t.DeserializeTuplesFrom (writeIntBytes hdrSize ++ statusByte ::
            (writeShortBytes names.length ++ (types ++ (encodeNames names ++ rest)))) =
          DeserResult.ok { t with tuples := tups ++ t.tuples.drop tups.length } r2) := by
  have hmain := deserialize_header_encoded t hdrSize statusByte names hcc types htypes hnm rest
  refine ⟨?_, ?_, ?_⟩
  · intro h
    rw [hmain, if_neg h]
  · intro h
    rw [hmain, if_pos h]
    cases hw : t.DeserializeTuplesFromWithoutHeader rest with
    | none => simp
    | some p => simp
  · intro h tups r2 hwf h32 hrest
    subst hrest
    rw [hmain, if_pos h, deserializeWithoutHeader_encode t tups r2 hwf h32]

/-- C6 witness: a two-column wire header arriving at the one-column
`tileEx` is rejected with `SerializationException`. -/
theorem tile_deserialize_colcount_check_witness :
    TileState.DeserializeTuplesFrom tileEx (writeIntBytes 9 ++ 128 ::
        (writeShortBytes (List.length [[98], [99]]) ++
          ([5, 5] ++ (encodeNames [[98], [99]] ++ [])))) =
      DeserResult.serializationException :=
  (tile_deserialize_colcount_check tileEx 9 128 [[98], [99]] (by decide) [5, 5]
    (by decide) (by decide) []).1 (by decide)

--===========================================================================--
-- Helper lemmas about the position list
--===========================================================================--

theorem mem_buildPositionList (vis : Nat → Bool) (pred : Option (Nat → TriValue))
    (n s : Nat) :
    s ∈ buildPositionList vis pred n ↔
      s < n ∧ vis s = true ∧
        (pred = none ∨ ∃ q, pred = some q ∧ (q s).IsTrue = true) := by
  cases pred with
  | none =>
      simp [buildPositionList, keepSlot, List.mem_filter, List.mem_range, and_comm]
  | some q =>
      simp [buildPositionList, keepSlot, List.mem_filter, List.mem_range,
        Bool.and_eq_true, and_comm, and_assoc]

theorem buildPositionList_pairwise (vis : Nat → Bool) (pred : Option (Nat → TriValue))
    (n : Nat) : (buildPositionList vis pred n).Pairwise (· < ·) :=
  (List.pairwise_lt_range n).sublist (List.filter_sublist _)

theorem buildPositionList_nodup (vis : Nat → Bool) (pred : Option (Nat → TriValue))
    (n : Nat) : (buildPositionList vis pred n).Nodup :=
  (List.nodup_range n).sublist (List.filter_sublist _)

--===========================================================================--
-- Claim C2: base-table scan position lists and termination
--===========================================================================--

/-- C2: with the cursor within bounds, a base-table `DExecute` call returns
false exactly when the cursor equals the tile-group count (so a table with
zero tile groups yields false on the first call); otherwise it consumes
exactly one tile group (cursor advances by one, tile groups in ascending
offset order) and its single position list holds exactly the slots
`s < nextTupleSlot` that are visible and pass the absent-or-strictly-true
predicate test, in ascending slot order without duplicates. -/
theorem seqscan_tablescan_position_list_spec (table : DataTable)
    (isVisible : Nat → Nat → Bool) (pred : Option (Nat → Nat → TriValue))
    (st : SeqScanState)
    (hoff : st.currentTileGroupOffset ≤ table.tileGroups.length) :
    (DExecuteTableScan table isVisible pred st = none ↔
      st.currentTileGroupOffset = table.tileGroups.length) ∧
    (∀ lt st2, DExecuteTableScan table isVisible pred st = some (lt, st2) →
      st2.currentTileGroupOffset = st.currentTileGroupOffset + 1 ∧
      ∃ tg, table.tileGroups.get? st.currentTileGroupOffset = some tg ∧
        lt.positionLists =
          [buildPositionList (isVisible st.currentTileGroupOffset)
            (pred.map fun p => p st.currentTileGroupOffset) tg.nextTupleSlot] ∧
        (∀ s, s ∈ buildPositionList (isVisible st.currentTileGroupOffset)
              (pred.map fun p => p st.currentTileGroupOffset) tg.nextTupleSlot ↔
            s < tg.nextTupleSlot ∧ isVisible st.currentTileGroupOffset s = true ∧
              (pred = none ∨ ∃ q, pred = some q ∧
                (q st.currentTileGroupOffset s).IsTrue = true)) ∧
        (buildPositionList (isVisible st.currentTileGroupOffset)
          (pred.map fun p => p st.currentTileGroupOffset) tg.nextTupleSlot).Pairwise (· < ·) ∧
        (buildPositionList (isVisible st.currentTileGroupOffset)
          (pred.map fun p => p st.currentTileGroupOffset) tg.nextTupleSlot).Nodup) := by
  constructor
  · constructor
    · intro hnone
      by_contra hne
      have hlt : st.currentTileGroupOffset < table.tileGroups.length :=
        lt_of_le_of_ne hoff hne
      rw [DExecuteTableScan] at hnone
      rw [if_neg hne, List.get?_eq_get hlt] at hnone
      exact absurd hnone (by simp)
    · intro heq
      rw [DExecuteTableScan, if_pos heq]
  · intro lt st2 hsome
    by_cases heq : st.currentTileGroupOffset = table.tileGroups.length
    · rw [DExecuteTableScan, if_pos heq] at hsome
      exact absurd hsome (by simp)
    · rw [DExecuteTableScan, if_neg heq] at hsome
      cases htg : table.tileGroups.get? st.currentTileGroupOffset with
      | none =>
          rw [htg] at hsome
          exact absurd hsome (by simp)
      | some tg =>
          rw [htg] at hsome
          simp only [Option.some.injEq, Prod.mk.injEq] at hsome
          obtain ⟨hlt, hst⟩ := hsome
          refine ⟨by rw [← hst], tg, rfl, by rw [← hlt], ?_, ?_, ?_⟩
          · intro s
            cases pred with
            | none =>
                simpa using mem_buildPositionList (isVisible st.currentTileGroupOffset)
                  none tg.nextTupleSlot s
            | some p =>
                simpa using mem_buildPositionList (isVisible st.currentTileGroupOffset)
                  (some (p st.currentTileGroupOffset)) tg.nextTupleSlot s
          · exact buildPositionList_pairwise _ _ _
          · exact buildPositionList_nodup _ _ _

/-- C2 witness: the bound and the exhaustion criterion evaluated at the
one-tile-group `tableEx` and the freshly initialized scan state. -/
theorem seqscan_tablescan_position_list_spec_witness :
    initScanStateEx.currentTileGroupOffset ≤ tableEx.tileGroups.length ∧
      (DExecuteTableScan tableEx visEx (some predEvenTrueEx) initScanStateEx = none ↔
        initScanStateEx.currentTileGroupOffset = tableEx.tileGroups.length) :=
  ⟨by decide,
    (seqscan_tablescan_position_list_spec tableEx visEx (some predEvenTrueEx)
      initScanStateEx (by decide)).1⟩

--===========================================================================--
-- Claim C4: emitted logical tile shape
--===========================================================================--

/-- C4: when the cursor addresses tile group `tg`, the emitted logical
tile has exactly one position list (the singleton list, so index 0) and
one column binding per origin column id in the effective column-id list —
which equals `0 .. schemaColumnCount` when the stored list was empty —
each resolved through the tile group's `LocateTileAndColumn` routing, with
`positionListIdx = 0` and `ownBaseTile = false` on every binding. -/
theorem seqscan_tablescan_output_shape (table : DataTable)
    (isVisible : Nat → Nat → Bool) (pred : Option (Nat → Nat → TriValue))
    (st : SeqScanState) (tg : TileGroup)
    (htg : table.tileGroups.get? st.currentTileGroupOffset = some tg) :
    DExecuteTableScan table isVisible pred st =
      some ({ positionLists :=
                [buildPositionList (isVisible st.currentTileGroupOffset)
                  (pred.map fun p => p st.currentTileGroupOffset) tg.nextTupleSlot]
              columns := (effectiveColumnIds table st).map fun cid =>
                { baseTileOffset := (tg.locate cid).1, ownBaseTile := false,
                  tileColumnId := (tg.locate cid).2, positionListIdx := 0 } },
            { currentTileGroupOffset := st.currentTileGroupOffset + 1,
              columnIds := effectiveColumnIds table st }) ∧
    (st.columnIds = [] →
      effectiveColumnIds table st = List.range table.schemaColumnCount) ∧
    (∀ b ∈ (effectiveColumnIds table st).map fun cid =>
        ({ baseTileOffset := (tg.locate cid).1, ownBaseTile := false,
           tileColumnId := (tg.locate cid).2,
           positionListIdx := 0 } : ColumnBinding),
      b.positionListIdx = 0 ∧ b.ownBaseTile = false) := by
  have hlt : st.currentTileGroupOffset < table.tileGroups.length := by
    by_contra hge
    rw [List.get?_eq_none.mpr (Nat.le_of_not_lt hge)] at htg
    exact absurd htg (by simp)
  refine ⟨?_, ?_, ?_⟩
  · rw [DExecuteTableScan, if_neg (Nat.ne_of_lt hlt), htg]
  · intro h
    simp [effectiveColumnIds, h]
  · intro b hb
    simp only [List.mem_map] at hb
    obtain ⟨cid, _, hbeq⟩ := hb
    rw [← hbeq]
    exact ⟨rfl, rfl⟩

/-- C4 witness: the emitted shape evaluated at `tableEx` from the initial
state (empty column ids, which get filled with `0 .. 2`). -/
theorem seqscan_tablescan_output_shape_witness :
    DExecuteTableScan tableEx visEx (some predEvenTrueEx) initScanStateEx =
        some ({ positionLists := [buildPositionList (visEx 0)
                  ((some predEvenTrueEx).map fun p => p 0) tileGroupEx.nextTupleSlot]
                columns := (effectiveColumnIds tableEx initScanStateEx).map fun cid =>
                  { baseTileOffset := (tileGroupEx.locate cid).1, ownBaseTile := false,
                    tileColumnId := (tileGroupEx.locate cid).2, positionListIdx := 0 } },
              { currentTileGroupOffset := 1,
                columnIds := effectiveColumnIds tableEx initScanStateEx }) ∧
      effectiveColumnIds tableEx initScanStateEx = List.range 2 :=
  ⟨(seqscan_tablescan_output_shape tableEx visEx (some predEvenTrueEx)
      initScanStateEx tileGroupEx rfl).1,
    (seqscan_tablescan_output_shape tableEx visEx (some predEvenTrueEx)
      initScanStateEx tileGroupEx rfl).2.1 rfl⟩

--===========================================================================--
-- Claim C10: the predicate is never consulted on invisible slots
--===========================================================================--

theorem buildPositionList_congr (vis : Nat → Bool) (q1 q2 : Nat → TriValue) (n : Nat)
    (h : ∀ s, vis s = true → q1 s = q2 s) :
    buildPositionList vis (some q1) n = buildPositionList vis (some q2) n := by
  unfold buildPositionList
  apply List.filter_congr
  intro s _
  unfold keepSlot
  cases hv : vis s with
  | false => simp
  | true => simp [h s hv]

/-- C10: the base-table scan consults the predicate only after the
visibility test has passed, so two predicates that agree on every visible
slot of every tile group drive the whole scan to identical outputs,
whatever either predicate does on invisible slots. -/
theorem seqscan_predicate_noninterference (table : DataTable)
    (isVisible : Nat → Nat → Bool) (p1 p2 : Nat → Nat → TriValue)
    (hagree : ∀ g s, isVisible g s = true → p1 g s = p2 g s)
    (fuel : Nat) (st : SeqScanState) :
    runTableScan table isVisible (some p1) fuel st =
      runTableScan table isVisible (some p2) fuel st := by
  induction fuel generalizing st with
  | zero => rfl
  | succ fuel ih =>
      have hd : DExecuteTableScan table isVisible (some p1) st =
          DExecuteTableScan table isVisible (some p2) st := by
        by_cases heq : st.currentTileGroupOffset = table.tileGroups.length
        · rw [DExecuteTableScan, if_pos heq, DExecuteTableScan, if_pos heq]
        · rw [DExecuteTableScan, if_neg heq, DExecuteTableScan, if_neg heq]
          cases htg : table.tileGroups.get? st.currentTileGroupOffset with
          | none => rfl
          | some tg =>
              have hb := buildPositionList_congr (isVisible st.currentTileGroupOffset)
                (p1 st.currentTileGroupOffset) (p2 st.currentTileGroupOffset)
                tg.nextTupleSlot (fun s hv => hagree st.currentTileGroupOffset s hv)
              simp [hb]
      rw [runTableScan, runTableScan, hd]
      cases hq : DExecuteTableScan table isVisible (some p2) st with
      | none => rfl
      | some p =>
          obtain ⟨lt, st2⟩ := p
          simp only [ih st2]

/-- C10 witness: under `visEx` (even slots visible) the predicates
`predEvenTrueEx` and `predAllTrueEx` differ on the invisible odd slots yet
drive identical scans of `tableEx`. -/
theorem seqscan_predicate_noninterference_witness :
    runTableScan tableEx visEx (some predEvenTrueEx) 3 initScanStateEx =
      runTableScan tableEx visEx (some predAllTrueEx) 3 initScanStateEx :=
  seqscan_predicate_noninterference tableEx visEx predEvenTrueEx predAllTrueEx
    (fun g s hv => by
      unfold visEx at hv
      unfold predEvenTrueEx predAllTrueEx
      rw [if_pos hv]) 3 initScanStateEx

--===========================================================================--
-- Claim C1: null predicate results in one-child mode
--===========================================================================--

/-- C1: in one-child mode the code removes a position's visibility only
when the predicate result is strictly false (`IsFalse()`, line 77), so a
position whose predicate result is null is retained — while the visibility
set the specification prescribes (keep iff strictly true) drops it.  The
evaluation below exhibits the divergence at a single visible position
whose predicate result is null. -/
theorem seqscan_onechild_null_retained :
    modeAVisibleAfter (fun _ => TriValue.vnull) [0] = [0] ∧
      specModeAVisibleAfter (fun _ => TriValue.vnull) [0] = [] :=
  ⟨rfl, rfl⟩

--===========================================================================--
-- Claim C7: tile construction
--===========================================================================--

/-- C7 counterexample: with a backend whose `Allocate` returns null, the
constructor dies on `assert(data != NULL)`; no `AllocationError` is raised
or propagated. -/
theorem tile_ctor_no_allocation_error_cex :
    tileCtor backendNullEx schemaEx 1 = TileCtorOutcome.assertionFailure ∧
      tileCtor backendNullEx schemaEx 1 ≠ TileCtorOutcome.allocationError := by
  exact ⟨rfl, by decide⟩

/-- C7 amended: construction acquires exactly
`tupleCount * schema.GetLength()` bytes, zeroes all of them, and allocates
a pool exactly when the schema is not fully inlined; when the backend
returns null (and likewise when `tupleCount = 0`) it fails the debug
assertion — a process abort in debug builds, undefined behaviour in
release — rather than raising a propagated `AllocationError`, an outcome
the constructor never produces. -/
theorem tile_ctor_behavior (backend : Backend) (schema : Schema) (tupleCount : Nat) :
    (tupleCount ≠ 0 → backend.allocOk (tupleCount * schema.GetLength) = true →
      tileCtor backend schema tupleCount =
        TileCtorOutcome.constructed
          (List.replicate (tupleCount * schema.GetLength) 0) (!schema.IsInlined)) ∧
    (tupleCount ≠ 0 → backend.allocOk (tupleCount * schema.GetLength) = false →
      tileCtor backend schema tupleCount = TileCtorOutcome.assertionFailure) ∧
    tileCtor backend schema tupleCount ≠ TileCtorOutcome.allocationError := by
  refine ⟨?_, ?_, ?_⟩
  · intro hn ha
    simp only [tileCtor, if_neg hn]
    rw [if_pos ha]
  · intro hn ha
    simp only [tileCtor, if_neg hn]
    rw [if_neg (by simp [ha])]
  · by_cases hn : tupleCount = 0
    · simp only [tileCtor, if_pos hn]
      exact fun h => nomatch h
    · simp only [tileCtor, if_neg hn]
      cases ha : backend.allocOk (tupleCount * schema.GetLength) with
      | false => simp
      | true => simp

/-- C7 witness: the successful and the failing construction evaluated at
the one-column schema with one tuple slot. -/
theorem tile_ctor_behavior_witness :
    tileCtor backendOkEx schemaEx 1 =
        TileCtorOutcome.constructed (List.replicate (1 * schemaEx.GetLength) 0)
          (!schemaEx.IsInlined) ∧
      tileCtor backendNullEx schemaEx 1 = TileCtorOutcome.assertionFailure :=
  ⟨(tile_ctor_behavior backendOkEx schemaEx 1).1 (by decide) rfl,
    (tile_ctor_behavior backendNullEx schemaEx 1).2.1 (by decide) rfl⟩

--===========================================================================--
-- Claim C8: tile equality
--===========================================================================--

theorem tuplesEqLoop_iff (xs ys : List TupleBytes) :
    tuplesEqLoop xs ys = true ↔ ys.take xs.length = xs := by
  induction xs generalizing ys with
  | nil => simp [tuplesEqLoop]
  | cons x xs ih =>
      cases ys with
      | nil => simp [tuplesEqLoop]
      | cons y ys =>
          simp only [tuplesEqLoop, Bool.and_eq_true, beq_iff_eq, ih,
            List.length_cons, List.take_succ_cons, List.cons.injEq]
          constructor
          · intro h
            exact ⟨h.1.symm, h.2⟩
          · intro h
            exact ⟨h.1.symm, h.2⟩

/-- C8 counterexample: `tileEx`'s single tuple sequence is a proper prefix
of `tileTwoEx`'s, the other fields agree, and `operator==` nevertheless
returns true — the loop stops when this tile's iterator is exhausted and
never checks that the other iterator is exhausted too. -/
theorem tile_eq_asymmetry_cex :
    tileEq tileEx tileTwoEx = true ∧
      tileEx.tuples.length ≠ tileTwoEx.tuples.length := by
  exact ⟨by decide, by decide⟩

/-- C8 amended: `operator==` returns true iff the stored column counts
agree, the database ids agree, the schemas are value-equal, and the left
tile's tuple sequence is a prefix of the right tile's in iteration order —
so equality fails when the right sequence is a proper prefix of the left
one, but holds when the left sequence is a proper prefix of the right. -/
theorem tile_eq_characterization (a b : TileState) :
    tileEq a b = true ↔
      a.columnCount = b.columnCount ∧ a.databaseId = b.databaseId ∧
        a.schema = b.schema ∧ b.tuples.take a.tuples.length = a.tuples := by
  have hform : tileEq a b =
      ((a.columnCount == b.columnCount) && ((a.databaseId == b.databaseId) &&
        ((a.schema == b.schema) && tuplesEqLoop a.tuples b.tuples))) := by
    unfold tileEq
    cases hc : a.columnCount == b.columnCount <;>
      cases hd : a.databaseId == b.databaseId <;>
        cases hs : a.schema == b.schema <;> simp
  rw [hform]
  simp [Bool.and_eq_true, beq_iff_eq, tuplesEqLoop_iff]

--===========================================================================--
-- Claim C9: TupleRecord location invariant
--===========================================================================--

/-- C9 counterexample: the type-only constructor applied to the insert
record type yields a record whose insert location is all-zero (hence not
valid), violating the claimed per-type location invariant. -/
theorem tuple_record_invariant_cex :
    specLocationInvariant (TupleRecord.mkTypeOnly LogRecordType.tupleInsert) = false := by
  decide

/-- C9 amended: neither constructor enforces a per-type location
invariant.  The type-only constructor zeroes both locations whatever the
record type; the full constructor stores exactly the caller's two
locations, checking (by assertion) only that the transaction id, the table
oid and the resolved database oid are non-zero — so a record satisfies the
location invariant only when its caller passes conforming locations. -/
theorem tuple_record_ctor_locations (ty : LogRecordType) (txnId tableOid : Nat)
    (il dl : ItemPointer) (dbOid currentDbOid : Nat) :
    ((TupleRecord.mkTypeOnly ty).insertLocation = ⟨0, 0⟩ ∧
      (TupleRecord.mkTypeOnly ty).deleteLocation = ⟨0, 0⟩) ∧
    (∀ r, TupleRecord.mkFull ty txnId tableOid il dl dbOid currentDbOid = some r →
      r.insertLocation = il ∧ r.deleteLocation = dl ∧ r.recordType = ty) := by
  refine ⟨⟨rfl, rfl⟩, ?_⟩
  intro r hr
  simp only [TupleRecord.mkFull] at hr
  split_ifs at hr
  · injection hr with hr
    rw [← hr]
    exact ⟨rfl, rfl, rfl⟩
  · injection hr with hr
    rw [← hr]
    exact ⟨rfl, rfl, rfl⟩

/-- C9 witness: the zeroed locations of a type-only insert record, and the
verbatim stored location of a full-constructor record. -/
theorem tuple_record_ctor_locations_witness :
    (TupleRecord.mkTypeOnly LogRecordType.tupleInsert).insertLocation = ⟨0, 0⟩ ∧
      ({ recordType := LogRecordType.tupleInsert, txnId := 1, tableOid := 1,
          insertLocation := ⟨3, 4⟩, deleteLocation := ⟨0, 0⟩,
          dbOid := 1 } : TupleRecord).insertLocation = ⟨3, 4⟩ :=
  ⟨(tuple_record_ctor_locations LogRecordType.tupleInsert 1 1 ⟨3, 4⟩ ⟨0, 0⟩ 1 1).1.1,
    ((tuple_record_ctor_locations LogRecordType.tupleInsert 1 1 ⟨3, 4⟩ ⟨0, 0⟩ 1 1).2
      _ rfl).1⟩
